import Mathlib

/-!
# Verification of the go-errs error-enrichment library

Shallow embedding of `errs.go` (package `errs`). The package enriches a basic
error value with a stack snapshot, a creation timestamp, a key/value info map,
an accumulated public message and a user-error flag, and supports wrapping an
existing error with in-place merge semantics.

Modelling choices, each tied to the source:

* Go pointers to the internal `err` struct are modelled by a heap: a list of
  `ErrState` cells addressed by index (`Ref`).  `Wrap` mutates a cell in place
  and returns the same reference, exactly as the Go code mutates `*err`.
* A Go `error` value handed to `Wrap` is either a plain error (anything that
  is not an `errs.Err`) or a reference to an `err` cell; the `err.(Err)` /
  `Err.(*err)` type switches of `Wrap`/`IsErr` become a match on that sum.
* A Go `interface{}` value stored in an `Info` map is `GoVal α`: either Go's
  nil interface value (`GoVal.nil`) or a non-nil value drawn from an
  arbitrary type `α` (`GoVal.val`).  A key may therefore be present in a map
  yet bound to nil, as after `errs.Info{"K": nil}`.
* A Go `Info` map (`map[string]interface{}`) is
  `Option (List (String × GoVal α))`: `none` is the nil map, `some m` a
  non-nil map given as an association list whose order stands for the
  (arbitrary) `range` iteration order.  Lookup of an absent key yields the
  zero value `GoVal.nil`, exactly as in Go; assignment (`setInfo`) replaces
  the binding of a present key and appends an absent one, exactly Go map
  update; assigning to a nil map is a runtime panic, modelled with `Except`.
* `debug.Stack()` and `time.Now()` are ambient inputs, passed as explicit
  `Nat` tokens.
* The `for e.info[key] != nil { key = key + "_duplicate" }` loop of `mergeIn`
  is given the fuel `keyBound`, proved sufficient below (`freshKey_chain`):
  the returned key is exactly the first key of the `_duplicate` chain whose
  current value is nil — absent keys and keys bound to a nil value alike,
  exactly the `!= nil` guard of the Go loop — which is what the unbounded
  Go loop returns.
-/

namespace Errs

/-- A Go `interface{}` value as stored in an `Info` map: the nil interface
value, or a non-nil value drawn from `α`. -/
inductive GoVal (α : Type) where
  | nil
  | val (a : α)
deriving DecidableEq, Repr

/-- The `!= nil` test on a Go `interface{}` value. -/
def GoVal.isNonNil {α : Type} : GoVal α → Bool
  | GoVal.nil => false
  | GoVal.val _ => true

/-- A Go `error` value as seen by this package: either a plain error carrying
only its message, or a pointer to an internal `err` struct (a heap cell). -/
inductive GoError (α : Type) where
  | plain (msg : String)
  | ref (r : Nat)
deriving DecidableEq, Repr

/-- Pointer to an internal `err` struct: index of a heap cell. -/
abbrev Ref := Nat

/-- The internal `err` struct of errs.go:
`stack []byte; time time.Time; wrappedErr error; isUserErr bool; info Info;
publicMsg string`.  `info = none` is Go's nil map. -/
structure ErrState (α : Type) where
  stack : Nat
  time : Nat
  wrappedErr : Option (GoError α)
  isUserErr : Bool
  info : Option (List (String × GoVal α))
  publicMsg : String
deriving DecidableEq, Repr

/-- The heap of allocated `err` structs; references are list indices. -/
structure Heap (α : Type) where
  cells : List (ErrState α)
deriving DecidableEq, Repr

/-- The empty heap (no `err` allocated yet). -/
def Heap.empty (α : Type) : Heap α := ⟨[]⟩

/-- `concatArgs`: `fmt.Sprintln(args...)` without the trailing newline, i.e.
the string renderings of the arguments joined by single spaces. -/
def concatArgs (args : List String) : String := String.intercalate " " args

/-- Go map lookup `m[k]` on a non-nil map: the binding of `k`, or the zero
value `GoVal.nil` when `k` is absent. -/
def lookupInfo {α : Type} : List (String × GoVal α) → String → GoVal α
  | [], _ => GoVal.nil
  | p :: t, k => if p.1 == k then p.2 else lookupInfo t k

/-- Go map assignment `m[k] = v` on a non-nil map: replace the binding of a
present key, append an absent one. -/
def setInfo {α : Type} : List (String × GoVal α) → String → GoVal α →
    List (String × GoVal α)
  | [], k, v => [(k, v)]
  | p :: t, k, v => if p.1 == k then (k, v) :: t else p :: setInfo t k v

/-- The key obtained from `k` by appending `"_duplicate"` `n` times. -/
def dupKey (k : String) : Nat → String
  | 0 => k
  | n + 1 => dupKey (k ++ "_duplicate") n

/-- Number of entries of `m` whose key is at least as long as `k`.  Each
collision in the `_duplicate` loop strictly decreases this bound, so it is
sufficient fuel for the loop. -/
def keyBound {α : Type} (m : List (String × GoVal α)) (k : String) : Nat :=
  (m.filter (fun p => decide (k.length ≤ p.1.length))).length

/-- The loop `for e.info[key] != nil { key = key + "_duplicate" }` of
`mergeIn`, with explicit fuel.  The guard is the `!= nil` test on the
looked-up value: false both for an absent key and for a key bound to a nil
value. -/
def freshKeyGo {α : Type} (m : List (String × GoVal α)) : String → Nat → String
  | k, 0 => k
  | k, fuel + 1 =>
    if (lookupInfo m k).isNonNil then freshKeyGo m (k ++ "_duplicate") fuel
    else k

/-- The key under which `mergeIn` inserts an incoming entry with key `k` into
the map `m`: the first key of the chain `k`, `k_duplicate`, ... whose current
value in `m` is nil (fuel `keyBound m k` is proved sufficient in
`freshKey_chain`). -/
def freshKey {α : Type} (m : List (String × GoVal α)) (k : String) : String :=
  freshKeyGo m k (keyBound m k)

/-- The info loop of `mergeIn` over a non-nil map: each incoming pair is
assigned under its fresh key, the map changing as the loop proceeds.  The
incoming list order stands for the arbitrary `range` order. -/
def mergeInfo {α : Type} (m : List (String × GoVal α)) :
    List (String × GoVal α) → List (String × GoVal α)
  | [] => m
  | (k, v) :: rest => mergeInfo (setInfo m (freshKey m k) v) rest

/-- The info loop of `mergeIn` on the stored map, which may be Go's nil map:
reading a nil map yields the zero value, but the assignment
`e.info[key] = val` on a nil map panics, so any non-empty incoming map
makes the merge abort with Go's runtime error. -/
def mergeInfoGo {α : Type} :
    Option (List (String × GoVal α)) → List (String × GoVal α) →
    Except String (Option (List (String × GoVal α)))
  | none, [] => Except.ok none
  | none, _ :: _ => Except.error "assignment to entry in nil map"
  | some m, l => Except.ok (some (mergeInfo m l))

/-- The public-message update of `mergeIn`: keep the old message if the
incoming parts render empty, else prepend the new fragment, with
`" - "` between non-empty fragments. -/
def mergedMsg (old pre : String) : String :=
  if pre = "" then old
  else if old = "" then pre
  else pre ++ " - " ++ old

/-- `(*err).mergeIn(info, publicMsgParts)`: merge the incoming info pairs and
message parts into the struct.  `Except.error` models the Go panic on
assignment to a nil info map. -/
def mergeIn {α : Type} (e : ErrState α) (info : List (String × GoVal α))
    (publicMsgParts : List String) : Except String (ErrState α) :=
  match mergeInfoGo e.info info with
  | Except.error s => Except.error s
  | Except.ok newInfo =>
    Except.ok ⟨e.stack, e.time, e.wrappedErr, e.isUserErr, newInfo,
      mergedMsg e.publicMsg (concatArgs publicMsgParts)⟩

/-- `newErr(stack, wrappedErr, isUserErr, info, publicMsgParts)`: allocate a
fresh `err` struct and return its reference. -/
def newErr {α : Type} (h : Heap α) (stack tm : Nat) (wrappedErr : Option (GoError α))
    (isUserErr : Bool) (info : Option (List (String × GoVal α)))
    (publicMsgParts : List String) : Heap α × Ref :=
  (⟨h.cells ++ [⟨stack, tm, wrappedErr, isUserErr, info, concatArgs publicMsgParts⟩]⟩,
   h.cells.length)

/-- `errs.New(info, publicMsg...)`: `newErr(debug.Stack(), nil, false, info, publicMsg)`.
The info map is stored as given, a nil map included. -/
def New {α : Type} (h : Heap α) (stack tm : Nat)
    (info : Option (List (String × GoVal α)))
    (publicMsg : List String) : Heap α × Ref :=
  newErr h stack tm none false info publicMsg

/-- `errs.UserError(info, publicMsg...)`: like `New` but with `isUserErr = true`. -/
def UserError {α : Type} (h : Heap α) (stack tm : Nat)
    (info : Option (List (String × GoVal α)))
    (publicMsg : List String) : Heap α × Ref :=
  newErr h stack tm none true info publicMsg

/-- `errs.Format(info, format, argv...)`: wraps `fmt.Errorf(format, argv...)`
(modelled as a plain error carrying the rendered message) with no public
message parts. -/
def Format {α : Type} (h : Heap α) (stack tm : Nat)
    (info : Option (List (String × GoVal α)))
    (msg : String) : Heap α × Ref :=
  newErr h stack tm (some (GoError.plain msg)) false info []

/-- `errs.IsErr(err)`: the `err.(Err)` type assertion.  In this embedding the
only values implementing the `Err` interface are the `*err` cells. -/
def IsErr {α : Type} : GoError α → Bool
  | GoError.ref _ => true
  | GoError.plain _ => false

/-- `errs.Wrap(wrapErr, info, publicMsg...)`.  A nil candidate yields nil; a
nil info map is replaced by the empty map; a candidate recognized by
`IsErr` (necessarily a `*err` cell here) is merged into in place and the
same reference returned; anything else is wrapped in a fresh cell. -/
def Wrap {α : Type} (h : Heap α) (stack tm : Nat) (wrapErr : Option (GoError α))
    (info : Option (List (String × GoVal α))) (publicMsgParts : List String) :
    Except String (Heap α × Option Ref) :=
  match wrapErr with
  | none => Except.ok (h, none)
  | some we =>
    let infoL := match info with
      | none => []
      | some l => l
    match we with
    | GoError.ref r =>
      match h.cells.get? r with
      | none => Except.error "invalid reference"
      | some e =>
        match mergeIn e infoL publicMsgParts with
        | Except.error s => Except.error s
        | Except.ok e2 => Except.ok (⟨h.cells.set r e2⟩, some r)
    | GoError.plain _ =>
      let p := newErr h stack tm (some we) false (some infoL) publicMsgParts
      Except.ok (p.1, some p.2)

/-- `(*err).Stack()`. -/
def ErrState.Stack {α : Type} (e : ErrState α) : Nat := e.stack

/-- `(*err).Time()`. -/
def ErrState.Time {α : Type} (e : ErrState α) : Nat := e.time

/-- `(*err).WrappedError()`. -/
def ErrState.WrappedError {α : Type} (e : ErrState α) : Option (GoError α) := e.wrappedErr

/-- `(*err).PublicMsg()`. -/
def ErrState.PublicMsg {α : Type} (e : ErrState α) : String := e.publicMsg

/-- `(*err).IsUserError()`. -/
def ErrState.IsUserError {α : Type} (e : ErrState α) : Bool := e.isUserErr

/-- `(*err).AllInfo()`. -/
def ErrState.AllInfo {α : Type} (e : ErrState α) : Option (List (String × GoVal α)) := e.info

/-- `(*err).Info(key)`: nil-guarded lookup in the info map; returns Go's nil
both when the map itself is nil and when the key is absent or nil-bound. -/
def ErrState.Info {α : Type} (e : ErrState α) (key : String) : GoVal α :=
  match e.info with
  | none => GoVal.nil
  | some m => lookupInfo m key

/-- The cell a constructor just allocated, read back from the returned heap
and reference. -/
def allocCell {α : Type} (p : Heap α × Ref) : Option (ErrState α) :=
  p.1.cells.get? p.2

/-- The user-error flag of the cell a constructor just allocated. -/
def allocFlag {α : Type} (p : Heap α × Ref) : Option Bool :=
  (allocCell p).map (fun e => e.isUserErr)

/-!
## Helper lemmas

Filter cardinality lemmas establishing that `keyBound` is sufficient fuel for
the `_duplicate` loop, lookup/assignment lemmas for the association-list
model of the info map, and inversion lemmas for `mergeIn`.
-/

theorem length_filter_mono {β : Type} (p q : β → Bool)
    (hpq : ∀ x, q x = true → p x = true) :
    ∀ m : List β, (m.filter q).length ≤ (m.filter p).length := by
  intro m
  induction m with
  | nil => simp
  | cons b t ih =>
    cases hq : q b with
    | false =>
      cases hp : p b with
      | false =>
        simp only [List.filter_cons, hq, hp, if_neg, Bool.false_eq_true,
          ite_false]
        exact ih
      | true =>
        simp only [List.filter_cons, hq, hp, Bool.false_eq_true, ite_false,
          ite_true, List.length_cons]
        exact Nat.le_succ_of_le ih
    | true =>
      have hp := hpq b hq
      simp only [List.filter_cons, hq, hp, ite_true, List.length_cons]
      exact Nat.succ_le_succ ih

theorem length_filter_lt {β : Type} (p q : β → Bool)
    (hpq : ∀ x, q x = true → p x = true) (a : β)
    (hpa : p a = true) (hqa : q a = false) :
    ∀ m : List β, a ∈ m → (m.filter q).length < (m.filter p).length := by
  intro m
  induction m with
  | nil => intro hmem; cases hmem
  | cons b t ih =>
    intro hmem
    rcases List.mem_cons.mp hmem with hab | hmem'
    · subst hab
      simp only [List.filter_cons, hpa, hqa, Bool.false_eq_true, ite_false,
        ite_true, List.length_cons]
      exact Nat.lt_succ_of_le (length_filter_mono p q hpq t)
    · cases hq : q b with
      | true =>
        have hp := hpq b hq
        simp only [List.filter_cons, hq, hp, ite_true, List.length_cons]
        exact Nat.succ_lt_succ (ih hmem')
      | false =>
        cases hp : p b with
        | true =>
          simp only [List.filter_cons, hq, hp, Bool.false_eq_true, ite_false,
            ite_true, List.length_cons]
          exact Nat.lt_succ_of_lt (ih hmem')
        | false =>
          simp only [List.filter_cons, hq, hp, Bool.false_eq_true, ite_false]
          exact ih hmem'

theorem GoVal.eq_nil_of_isNonNil_false {α : Type} (v : GoVal α)
    (h : GoVal.isNonNil v = false) : v = GoVal.nil := by
  cases v with
  | nil => rfl
  | val a => cases h

theorem GoVal.ne_nil_of_isNonNil {α : Type} (v : GoVal α)
    (h : GoVal.isNonNil v = true) : v ≠ GoVal.nil := by
  cases v with
  | nil => cases h
  | val a =>
    intro hc
    cases hc

theorem lookupInfo_nil {α : Type} (k : String) :
    lookupInfo ([] : List (String × GoVal α)) k = GoVal.nil := rfl

theorem lookupInfo_cons {α : Type} (p : String × GoVal α)
    (t : List (String × GoVal α)) (k : String) :
    lookupInfo (p :: t) k = if p.1 == k then p.2 else lookupInfo t k := rfl

theorem setInfo_nil {α : Type} (k : String) (v : GoVal α) :
    setInfo ([] : List (String × GoVal α)) k v = [(k, v)] := rfl

theorem setInfo_cons {α : Type} (p : String × GoVal α)
    (t : List (String × GoVal α)) (k : String) (v : GoVal α) :
    setInfo (p :: t) k v =
      if p.1 == k then (k, v) :: t else p :: setInfo t k v := rfl

theorem exists_entry_of_lookupInfo_ne_nil {α : Type}
    (m : List (String × GoVal α)) (k : String)
    (h : lookupInfo m k ≠ GoVal.nil) : ∃ p, p ∈ m ∧ p.1 = k := by
  induction m with
  | nil => exact absurd rfl h
  | cons p t ih =>
    rw [lookupInfo_cons] at h
    by_cases hp : (p.1 == k) = true
    · exact ⟨p, List.mem_cons_self p t, eq_of_beq hp⟩
    · rw [if_neg hp] at h
      obtain ⟨q, hq, hqk⟩ := ih h
      exact ⟨q, List.mem_cons_of_mem p hq, hqk⟩

theorem keyBound_pos {α : Type} (m : List (String × GoVal α)) (k : String)
    (h : lookupInfo m k ≠ GoVal.nil) : 0 < keyBound m k := by
  obtain ⟨p, hmem, hk⟩ := exists_entry_of_lookupInfo_ne_nil m k h
  have hpf : p ∈ m.filter (fun p => decide (k.length ≤ p.1.length)) := by
    rw [List.mem_filter]
    exact ⟨hmem, by rw [hk]; simp⟩
  exact List.length_pos.mpr (List.ne_nil_of_mem hpf)

theorem keyBound_dup_lt {α : Type} (m : List (String × GoVal α)) (k : String)
    (h : lookupInfo m k ≠ GoVal.nil) :
    keyBound m (k ++ "_duplicate") < keyBound m k := by
  obtain ⟨p, hmem, hk⟩ := exists_entry_of_lookupInfo_ne_nil m k h
  have hd : ("_duplicate" : String).length = 10 := rfl
  have hlen : (k ++ "_duplicate").length = k.length + 10 := by
    rw [String.length_append, hd]
  apply length_filter_lt _ _ ?_ p ?_ ?_ m hmem
  · intro x hx
    simp only [decide_eq_true_eq] at hx ⊢
    omega
  · simp only [decide_eq_true_eq]
    rw [hk]
  · simp only [decide_eq_false_iff_not]
    rw [hk]
    omega

theorem freshKeyGo_succ {α : Type} (m : List (String × GoVal α)) (k : String)
    (fuel : Nat) :
    freshKeyGo m k (fuel + 1) =
      if (lookupInfo m k).isNonNil then freshKeyGo m (k ++ "_duplicate") fuel
      else k := rfl

theorem freshKeyGo_spec {α : Type} (m : List (String × GoVal α)) :
    ∀ (fuel : Nat) (k : String), keyBound m k ≤ fuel →
    ∃ n, freshKeyGo m k fuel = dupKey k n ∧
         lookupInfo m (dupKey k n) = GoVal.nil ∧
         ∀ j, j < n → lookupInfo m (dupKey k j) ≠ GoVal.nil := by
  intro fuel
  induction fuel with
  | zero =>
    intro k hb
    refine ⟨0, rfl, ?_, fun j hj => absurd hj (Nat.not_lt_zero j)⟩
    by_contra hc
    have := keyBound_pos m k hc
    omega
  | succ fuel ih =>
    intro k hb
    cases hs : (lookupInfo m k).isNonNil with
    | false =>
      have hnone : lookupInfo m k = GoVal.nil :=
        GoVal.eq_nil_of_isNonNil_false _ hs
      refine ⟨0, ?_, hnone, fun j hj => absurd hj (Nat.not_lt_zero j)⟩
      rw [freshKeyGo_succ, hs]
      simp [dupKey]
    | true =>
      have hne : lookupInfo m k ≠ GoVal.nil := GoVal.ne_nil_of_isNonNil _ hs
      have hb' : keyBound m (k ++ "_duplicate") ≤ fuel := by
        have := keyBound_dup_lt m k hne
        omega
      obtain ⟨n, h1, h2, h3⟩ := ih (k ++ "_duplicate") hb'
      refine ⟨n + 1, ?_, h2, ?_⟩
      · rw [freshKeyGo_succ, hs, if_pos rfl]
        exact h1
      · intro j hj
        cases j with
        | zero => exact hne
        | succ j' => exact h3 j' (Nat.lt_of_succ_lt_succ hj)

theorem freshKey_chain {α : Type} (m : List (String × GoVal α)) (k : String) :
    ∃ n, freshKey m k = dupKey k n ∧
         lookupInfo m (dupKey k n) = GoVal.nil ∧
         ∀ j, j < n → lookupInfo m (dupKey k j) ≠ GoVal.nil :=
  freshKeyGo_spec m (keyBound m k) k (Nat.le_refl _)

theorem freshKey_fresh {α : Type} (m : List (String × GoVal α)) (k : String) :
    lookupInfo m (freshKey m k) = GoVal.nil := by
  obtain ⟨n, h1, h2, _⟩ := freshKey_chain m k
  rw [h1]
  exact h2

theorem lookupInfo_setInfo_self {α : Type} (m : List (String × GoVal α))
    (k : String) (v : GoVal α) : lookupInfo (setInfo m k v) k = v := by
  induction m with
  | nil =>
    rw [setInfo_nil, lookupInfo_cons, if_pos (beq_self_eq_true k)]
  | cons p t ih =>
    rw [setInfo_cons]
    by_cases hp : (p.1 == k) = true
    · rw [if_pos hp, lookupInfo_cons, if_pos (beq_self_eq_true k)]
    · rw [if_neg hp, lookupInfo_cons, if_neg hp]
      exact ih

theorem lookupInfo_setInfo_other {α : Type} (m : List (String × GoVal α))
    (k k' : String) (v : GoVal α) (hne : k ≠ k') :
    lookupInfo (setInfo m k v) k' = lookupInfo m k' := by
  have hkk : (k == k') = false := by
    cases hbe : (k == k') with
    | true => exact absurd (eq_of_beq hbe) hne
    | false => rfl
  have hknot : ¬((k == k') = true) := by
    rw [hkk]
    exact Bool.false_ne_true
  induction m with
  | nil =>
    rw [setInfo_nil, lookupInfo_cons, if_neg hknot]
  | cons p t ih =>
    rw [setInfo_cons]
    by_cases hp : (p.1 == k) = true
    · have hp1 : ¬((p.1 == k') = true) := by
        rw [eq_of_beq hp]
        exact hknot
      rw [if_pos hp, lookupInfo_cons, if_neg hknot, lookupInfo_cons,
        if_neg hp1]
    · rw [if_neg hp, lookupInfo_cons, lookupInfo_cons]
      by_cases hq2 : (p.1 == k') = true
      · rw [if_pos hq2, if_pos hq2]
      · rw [if_neg hq2, if_neg hq2]
        exact ih

theorem mergeInfo_cons {α : Type} (m : List (String × GoVal α)) (k : String)
    (v : GoVal α) (rest : List (String × GoVal α)) :
    mergeInfo m ((k, v) :: rest) =
      mergeInfo (setInfo m (freshKey m k) v) rest := rfl

theorem mergeInfo_preserve {α : Type} (l : List (String × GoVal α)) :
    ∀ (m : List (String × GoVal α)) (k : String),
    lookupInfo m k ≠ GoVal.nil →
    lookupInfo (mergeInfo m l) k = lookupInfo m k := by
  induction l with
  | nil => intro m k _; rfl
  | cons kv rest ih =>
    intro m k h
    obtain ⟨k0, v0⟩ := kv
    rw [mergeInfo_cons]
    have hfr := freshKey_fresh m k0
    have hkne : freshKey m k0 ≠ k := by
      intro he
      rw [he] at hfr
      exact h hfr
    have ha := lookupInfo_setInfo_other m (freshKey m k0) k v0 hkne
    rw [ih _ _ (by rw [ha]; exact h), ha]

theorem mergeIn_ok_inv {α : Type} (e : ErrState α) (l : List (String × GoVal α))
    (parts : List String) (e' : ErrState α)
    (h : mergeIn e l parts = Except.ok e') :
    e'.stack = e.stack ∧ e'.time = e.time ∧ e'.wrappedErr = e.wrappedErr ∧
    e'.isUserErr = e.isUserErr ∧
    e'.publicMsg = mergedMsg e.publicMsg (concatArgs parts) ∧
    mergeInfoGo e.info l = Except.ok e'.info := by
  unfold mergeIn at h
  cases hg : mergeInfoGo e.info l with
  | error s => rw [hg] at h; cases h
  | ok ni =>
    rw [hg] at h
    cases h
    exact ⟨rfl, rfl, rfl, rfl, rfl, rfl⟩

theorem mergeInfoGo_ok_inv {α : Type} (io : Option (List (String × GoVal α)))
    (l : List (String × GoVal α)) (ni : Option (List (String × GoVal α)))
    (h : mergeInfoGo io l = Except.ok ni) :
    (io = none ∧ l = [] ∧ ni = none) ∨
    (∃ m, io = some m ∧ ni = some (mergeInfo m l)) := by
  cases io with
  | none =>
    cases l with
    | nil =>
      left
      refine ⟨rfl, rfl, ?_⟩
      cases h
      rfl
    | cons a l' => simp [mergeInfoGo] at h
  | some m =>
    right
    refine ⟨m, rfl, ?_⟩
    cases h
    rfl

theorem mergeIn_some {α : Type} (e : ErrState α) (m l : List (String × GoVal α))
    (parts : List String) (hm : e.info = some m) :
    mergeIn e l parts = Except.ok ⟨e.stack, e.time, e.wrappedErr, e.isUserErr,
      some (mergeInfo m l), mergedMsg e.publicMsg (concatArgs parts)⟩ := by
  unfold mergeIn
  rw [hm]
  rfl

theorem mergeIn_none_nil {α : Type} (e : ErrState α) (parts : List String)
    (hm : e.info = none) :
    mergeIn e [] parts = Except.ok ⟨e.stack, e.time, e.wrappedErr, e.isUserErr,
      none, mergedMsg e.publicMsg (concatArgs parts)⟩ := by
  unfold mergeIn
  rw [hm]
  rfl

theorem get?_append_singleton {β : Type} :
    ∀ (l : List β) (a : β), (l ++ [a]).get? l.length = some a := by
  intro l a
  induction l with
  | nil => rfl
  | cons b t ih => exact ih

theorem allocCell_newErr {α : Type} (h : Heap α) (stack tm : Nat)
    (w : Option (GoError α)) (u : Bool) (info : Option (List (String × GoVal α)))
    (parts : List String) :
    allocCell (newErr h stack tm w u info parts) =
    some ⟨stack, tm, w, u, info, concatArgs parts⟩ := by
  unfold allocCell newErr
  exact get?_append_singleton _ _

/-!
## Claim theorems
-/

/-- Heap for the C1 counterexample: an error constructed with an info map
whose single entry binds the key to Go's nil value, as produced by
`errs.New(errs.Info{"K": nil})`. -/
def c1x : Heap String × Ref :=
  New (Heap.empty String) 0 0 (some [("K", GoVal.nil)]) []

/-- C1 counterexample: the entry `("K", nil)` is present in the stored info
map, yet wrapping with incoming info `{"K": "v"}` replaces that present
entry under the bare key — the merged map binds `"K"` to `"v"` — and no
`"K_duplicate"` key is created, because `mergeIn`'s `e.info[key] != nil`
guard is false on a nil-valued binding.  This falsifies the claim that no
already-present entry is ever overwritten, for all prior contents and all
incoming info. -/
theorem C1_counterexample :
    allocCell c1x =
      some (⟨0, 0, none, false, some [("K", GoVal.nil)], ""⟩ : ErrState String) ∧
    ("K", GoVal.nil) ∈ ([("K", GoVal.nil)] : List (String × GoVal String)) ∧
    Wrap c1x.1 1 1 (some (GoError.ref c1x.2)) (some [("K", GoVal.val "v")]) [] =
      Except.ok (⟨[⟨0, 0, none, false, some [("K", GoVal.val "v")], ""⟩]⟩,
        some 0) ∧
    lookupInfo [("K", GoVal.val "v")] "K" ≠
      lookupInfo ([("K", GoVal.nil)] : List (String × GoVal String)) "K" ∧
    lookupInfo [("K", GoVal.val "v")] "K_duplicate" =
      (GoVal.nil : GoVal String) := by
  refine ⟨rfl, by simp, rfl, by decide, rfl⟩

/-- C1 as amended: a merge never overwrites an info entry whose value is
non-nil: every key bound to a non-nil value before the merge has the same
value after it; the assigned key is the first key of the chain `k`,
`k_duplicate`, `k_duplicate_duplicate`, ... whose current value is nil
(absent or nil-bound), and the incoming value is assigned exactly there.
Entries bound to Go's nil value are not protected: the `!= nil` guard
treats them as absent. -/
theorem C1_merge_never_overwrites_nonnil {α : Type} :
    (∀ (e : ErrState α) (l : List (String × GoVal α)) (parts : List String)
       (e' : ErrState α) (k : String),
       mergeIn e l parts = Except.ok e' → ErrState.Info e k ≠ GoVal.nil →
       ErrState.Info e' k = ErrState.Info e k)
    ∧ (∀ (m : List (String × GoVal α)) (k : String),
       ∃ n, freshKey m k = dupKey k n ∧
            lookupInfo m (dupKey k n) = GoVal.nil ∧
            ∀ j, j < n → lookupInfo m (dupKey k j) ≠ GoVal.nil)
    ∧ (∀ (m : List (String × GoVal α)) (k : String) (v : GoVal α)
         (rest : List (String × GoVal α)),
       mergeInfo m ((k, v) :: rest) =
         mergeInfo (setInfo m (freshKey m k) v) rest ∧
       lookupInfo (setInfo m (freshKey m k) v) (freshKey m k) = v) := by
  refine ⟨?_, fun m k => freshKey_chain m k, ?_⟩
  · intro e l parts e' k hmerge hk
    obtain ⟨-, -, -, -, -, hinfo⟩ := mergeIn_ok_inv e l parts e' hmerge
    rcases mergeInfoGo_ok_inv e.info l e'.info hinfo with
      ⟨h1, h2, h3⟩ | ⟨m, h1, h2⟩
    · unfold ErrState.Info at hk ⊢
      rw [h1] at hk
      exact absurd rfl hk
    · unfold ErrState.Info at hk ⊢
      rw [h1] at hk
      rw [h1, h2]
      exact mergeInfo_preserve l m k hk
  · intro m k v rest
    exact ⟨mergeInfo_cons m k v rest,
      lookupInfo_setInfo_self m (freshKey m k) v⟩

/-- Concrete instance for the C1 witness: an error whose info map already
binds the key about to be merged in again, to a non-nil value. -/
def c1e : ErrState String := ⟨0, 0, none, false, some [("K", GoVal.val "one")], ""⟩

/-- Witness for the amended C1 at a concrete collision with a non-nil-valued
binding. -/
theorem C1_witness :
    mergeIn c1e [("K", GoVal.val "two")] [] =
      Except.ok (⟨0, 0, none, false,
        some [("K", GoVal.val "one"), ("K_duplicate", GoVal.val "two")],
        ""⟩ : ErrState String) ∧
    ErrState.Info c1e "K" ≠ GoVal.nil ∧
    ErrState.Info (⟨0, 0, none, false,
        some [("K", GoVal.val "one"), ("K_duplicate", GoVal.val "two")],
        ""⟩ : ErrState String) "K" =
      ErrState.Info c1e "K" := by
  refine ⟨rfl, by decide, ?_⟩
  exact (C1_merge_never_overwrites_nonnil).1 c1e [("K", GoVal.val "two")] []
    ⟨0, 0, none, false,
      some [("K", GoVal.val "one"), ("K_duplicate", GoVal.val "two")], ""⟩
    "K" rfl (by decide)

/-- C2: the spec claims every operation is total over its documented inputs,
but wrapping an EnrichedError that was constructed with a nil info map
(`errs.New(nil)`), with a non-empty incoming info map, reaches Go's
assignment-to-nil-map runtime panic inside `mergeIn`: `Wrap` only
normalizes its own nil `info` argument, never the stored one.  This theorem
evaluates the code at the failing input. -/
theorem C2_wrap_after_nil_info_new_panics :
    Wrap (New (Heap.empty String) 0 0 none []).1 1 1
      (some (GoError.ref (New (Heap.empty String) 0 0 none []).2))
      (some [("K", GoVal.val "V")]) [] =
    Except.error "assignment to entry in nil map" := rfl

/-- The C3 scenario: construct with info `Key=First` and message `m1`, wrap
with `Key=Second` and `m2`, wrap again with `Key=Third` and `m3`, and read
the final cell back. -/
def c3Run : Except String (ErrState String) :=
  let p1 := New (Heap.empty String) 0 0 (some [("Key", GoVal.val "First")])
    ["m1"]
  match Wrap p1.1 1 1 (some (GoError.ref p1.2))
      (some [("Key", GoVal.val "Second")]) ["m2"] with
  | Except.error s => Except.error s
  | Except.ok (_, none) => Except.error "nil result"
  | Except.ok (h2, some r2) =>
    match Wrap h2 2 2 (some (GoError.ref r2))
        (some [("Key", GoVal.val "Third")]) ["m3"] with
    | Except.error s => Except.error s
    | Except.ok (_, none) => Except.error "nil result"
    | Except.ok (h3, some r3) =>
      match h3.cells.get? r3 with
      | none => Except.error "dangling reference"
      | some e => Except.ok e

/-- C3: after the double re-wrap, the first merge holds the bare key, the
second merge the once-suffixed key, the third merge the twice-suffixed key,
and the public message reads newest fragment first. -/
theorem C3_rewrap_scenario :
    c3Run.map (fun e => (ErrState.Info e "Key", ErrState.Info e "Key_duplicate",
      ErrState.Info e "Key_duplicate_duplicate", ErrState.PublicMsg e)) =
    Except.ok (GoVal.val "First", GoVal.val "Second", GoVal.val "Third",
      "m3 - m2 - m1") := rfl

/-- C4: the public-message part of a completed merge: an empty rendered
message-fragment list leaves the message unchanged; otherwise the rendered
fragments replace an empty message, or are prepended with a separating
" - " to a non-empty one. -/
theorem C4_message_merge {α : Type} (e : ErrState α) (l : List (String × GoVal α))
    (parts : List String) (e' : ErrState α)
    (h : mergeIn e l parts = Except.ok e') :
    (concatArgs parts = "" → ErrState.PublicMsg e' = ErrState.PublicMsg e) ∧
    (concatArgs parts ≠ "" → ErrState.PublicMsg e = "" →
      ErrState.PublicMsg e' = concatArgs parts) ∧
    (concatArgs parts ≠ "" → ErrState.PublicMsg e ≠ "" →
      ErrState.PublicMsg e' = concatArgs parts ++ " - " ++ ErrState.PublicMsg e) := by
  obtain ⟨-, -, -, -, hmsg, -⟩ := mergeIn_ok_inv e l parts e' h
  unfold ErrState.PublicMsg
  refine ⟨?_, ?_, ?_⟩
  · intro hpre
    rw [hmsg]
    unfold mergedMsg
    rw [if_pos hpre]
  · intro hpre hold
    rw [hmsg]
    unfold mergedMsg
    rw [if_neg hpre, if_pos hold]
  · intro hpre hold
    rw [hmsg]
    unfold mergedMsg
    rw [if_neg hpre, if_neg hold]

/-- Concrete instance for the C4 witness: an error carrying a non-empty
public message, merged with a non-empty fragment list. -/
def c4e : ErrState String := ⟨0, 0, none, false, some [], "old"⟩

/-- Witness for C4 at a concrete merge with non-empty message on both sides. -/
theorem C4_witness :
    mergeIn c4e [] ["new"] = Except.ok (⟨0, 0, none, false,
      some ([] : List (String × GoVal String)), "new - old"⟩ : ErrState String) ∧
    concatArgs ["new"] ≠ "" ∧ ErrState.PublicMsg c4e ≠ "" ∧
    ErrState.PublicMsg (⟨0, 0, none, false,
      some ([] : List (String × GoVal String)), "new - old"⟩ : ErrState String) =
      concatArgs ["new"] ++ " - " ++ ErrState.PublicMsg c4e := by
  refine ⟨rfl, by decide, by decide, ?_⟩
  exact (C4_message_merge c4e [] ["new"]
    ⟨0, 0, none, false, some [], "new - old"⟩ rfl).2.2 (by decide) (by decide)

/-- C5: wrapping a nil error yields nil, for every info argument and every
message-fragment list, leaving the heap untouched. -/
theorem C5_wrap_nil_returns_nil {α : Type} (h : Heap α) (stack tm : Nat)
    (info : Option (List (String × GoVal α))) (parts : List String) :
    Wrap h stack tm none info parts = Except.ok (h, none) := rfl

/-- C6: wrapping a candidate recognized by `IsErr` merges the supplied info
and message fragments into the existing cell in place and returns the very
same reference; the heap is only updated at that cell and nothing is
allocated. -/
theorem C6_wrap_merges_in_place {α : Type} (h : Heap α) (stack tm : Nat)
    (r : Ref) (e e' : ErrState α) (info : Option (List (String × GoVal α)))
    (parts : List String) (hr : h.cells.get? r = some e)
    (hm : mergeIn e (info.getD []) parts = Except.ok e') :
    IsErr (GoError.ref r : GoError α) = true ∧
    Wrap h stack tm (some (GoError.ref r)) info parts =
      Except.ok (⟨h.cells.set r e'⟩, some r) ∧
    (h.cells.set r e').length = h.cells.length := by
  refine ⟨rfl, ?_, List.length_set h.cells r e'⟩
  cases info with
  | none =>
    simp only [Option.getD] at hm
    simp only [Wrap, hr, hm]
  | some l =>
    simp only [Option.getD] at hm
    simp only [Wrap, hr, hm]

/-- Concrete one-cell heap for the C6 witness. -/
def c6h : Heap String := ⟨[⟨0, 0, none, false, some [], ""⟩]⟩

/-- Witness for C6 at a concrete heap, reference and merge. -/
theorem C6_witness :
    c6h.cells.get? 0 = some (⟨0, 0, none, false, some [], ""⟩ : ErrState String) ∧
    mergeIn (⟨0, 0, none, false, some [], ""⟩ : ErrState String)
      ((some [("A", GoVal.val "B")] :
        Option (List (String × GoVal String))).getD []) ["m"] =
      Except.ok (⟨0, 0, none, false, some [("A", GoVal.val "B")], "m"⟩ :
        ErrState String) ∧
    Wrap c6h 9 9 (some (GoError.ref 0)) (some [("A", GoVal.val "B")]) ["m"] =
      Except.ok (⟨c6h.cells.set 0
        ⟨0, 0, none, false, some [("A", GoVal.val "B")], "m"⟩⟩, some 0) := by
  refine ⟨rfl, rfl, ?_⟩
  exact (C6_wrap_merges_in_place c6h 9 9 0 ⟨0, 0, none, false, some [], ""⟩
    ⟨0, 0, none, false, some [("A", GoVal.val "B")], "m"⟩
    (some [("A", GoVal.val "B")]) ["m"] rfl rfl).2.1

/-- C7: a completed merge changes at most the info map and the public
message: the stack snapshot, the creation time, the wrapped error and the
user-error flag all survive unchanged. -/
theorem C7_merge_preserves_frame {α : Type} (e : ErrState α)
    (l : List (String × GoVal α)) (parts : List String) (e' : ErrState α)
    (h : mergeIn e l parts = Except.ok e') :
    ErrState.Stack e' = ErrState.Stack e ∧ ErrState.Time e' = ErrState.Time e ∧
    ErrState.WrappedError e' = ErrState.WrappedError e ∧
    ErrState.IsUserError e' = ErrState.IsUserError e := by
  obtain ⟨h1, h2, h3, h4, -, -⟩ := mergeIn_ok_inv e l parts e' h
  exact ⟨h1, h2, h3, h4⟩

/-- Concrete instance for the C7 witness: all four frame fields non-trivial. -/
def c7e : ErrState String :=
  ⟨3, 4, some (GoError.plain "boom"), true, some [], "p"⟩

/-- Witness for C7 at a concrete merge touching both info and message. -/
theorem C7_witness :
    mergeIn c7e [("X", GoVal.val "Y")] ["q"] = Except.ok (⟨3, 4,
      some (GoError.plain "boom"), true, some [("X", GoVal.val "Y")],
      "q - p"⟩ : ErrState String) ∧
    (ErrState.Stack (⟨3, 4, some (GoError.plain "boom"), true,
        some [("X", GoVal.val "Y")], "q - p"⟩ : ErrState String) =
       ErrState.Stack c7e ∧
     ErrState.Time (⟨3, 4, some (GoError.plain "boom"), true,
        some [("X", GoVal.val "Y")], "q - p"⟩ : ErrState String) =
       ErrState.Time c7e ∧
     ErrState.WrappedError (⟨3, 4, some (GoError.plain "boom"), true,
        some [("X", GoVal.val "Y")], "q - p"⟩ : ErrState String) =
       ErrState.WrappedError c7e ∧
     ErrState.IsUserError (⟨3, 4, some (GoError.plain "boom"), true,
        some [("X", GoVal.val "Y")], "q - p"⟩ : ErrState String) =
       ErrState.IsUserError c7e) := by
  refine ⟨rfl, ?_⟩
  exact C7_merge_preserves_frame c7e [("X", GoVal.val "Y")] ["q"]
    ⟨3, 4, some (GoError.plain "boom"), true, some [("X", GoVal.val "Y")],
      "q - p"⟩ rfl

/-- C8: the user-error flag is true exactly for values built by the
user-caused constructor: `New`, `Format` and the constructing path of
`Wrap` set it to false, `UserError` sets it to true, and a completed merge
preserves the flag of the merged-into instance. -/
theorem C8_user_flag {α : Type} :
    (∀ (h : Heap α) (stack tm : Nat) (info : Option (List (String × GoVal α)))
       (parts : List String),
       allocFlag (New h stack tm info parts) = some false)
    ∧ (∀ (h : Heap α) (stack tm : Nat) (info : Option (List (String × GoVal α)))
       (parts : List String),
       allocFlag (UserError h stack tm info parts) = some true)
    ∧ (∀ (h : Heap α) (stack tm : Nat) (info : Option (List (String × GoVal α)))
       (msg : String), allocFlag (Format h stack tm info msg) = some false)
    ∧ (∀ (h : Heap α) (stack tm : Nat) (msg : String)
       (info : Option (List (String × GoVal α))) (parts : List String),
       ∃ h' r, Wrap h stack tm (some (GoError.plain msg)) info parts =
           Except.ok (h', some r) ∧
         (h'.cells.get? r).map (fun e => e.isUserErr) = some false)
    ∧ (∀ (e : ErrState α) (l : List (String × GoVal α)) (parts : List String)
       (e' : ErrState α), mergeIn e l parts = Except.ok e' →
       ErrState.IsUserError e' = ErrState.IsUserError e) := by
  refine ⟨?_, ?_, ?_, ?_, ?_⟩
  · intro h stack tm info parts
    unfold allocFlag New
    rw [allocCell_newErr]
    rfl
  · intro h stack tm info parts
    unfold allocFlag UserError
    rw [allocCell_newErr]
    rfl
  · intro h stack tm info msg
    unfold allocFlag Format
    rw [allocCell_newErr]
    rfl
  · intro h stack tm msg info parts
    cases info with
    | none =>
      refine ⟨_, _, rfl, ?_⟩
      have hc := allocCell_newErr h stack tm (some (GoError.plain msg)) false
        (some []) parts
      unfold allocCell at hc
      rw [hc]
      rfl
    | some l =>
      refine ⟨_, _, rfl, ?_⟩
      have hc := allocCell_newErr h stack tm (some (GoError.plain msg)) false
        (some l) parts
      unfold allocCell at hc
      rw [hc]
      rfl
  · intro e l parts e' hm
    obtain ⟨-, -, -, h4, -, -⟩ := mergeIn_ok_inv e l parts e' hm
    exact h4

/-- Concrete instance for the C8 witness: a user-caused error being merged
into. -/
def c8e : ErrState String := ⟨1, 2, none, true, some [], ""⟩

/-- Witness for C8 at concrete constructor calls and a concrete merge. -/
theorem C8_witness :
    allocFlag (New (Heap.empty String) 0 0 none []) = some false ∧
    allocFlag (UserError (Heap.empty String) 0 0 none []) = some true ∧
    allocFlag (Format (Heap.empty String) 0 0 none "msg") = some false ∧
    mergeIn c8e [] [] = Except.ok c8e ∧
    ErrState.IsUserError c8e = ErrState.IsUserError c8e := by
  refine ⟨(C8_user_flag).1 (Heap.empty String) 0 0 none [],
    (C8_user_flag).2.1 (Heap.empty String) 0 0 none [],
    (C8_user_flag).2.2.1 (Heap.empty String) 0 0 none "msg", rfl, ?_⟩
  exact (C8_user_flag).2.2.2.2 c8e [] [] c8e rfl

/-- C9: the `Info` accessor guards the nil-map case: on an EnrichedError
whose info map is nil — in particular one built by `New` with a nil info
argument — it returns Go's nil for every key instead of failing. -/
theorem C9_info_nil_guard {α : Type} :
    (∀ (e : ErrState α) (k : String), e.info = none →
       ErrState.Info e k = GoVal.nil)
    ∧ (∀ (h : Heap α) (stack tm : Nat) (parts : List String) (k : String)
        (e : ErrState α), allocCell (New h stack tm none parts) = some e →
        ErrState.Info e k = GoVal.nil) := by
  constructor
  · intro e k hinfo
    unfold ErrState.Info
    rw [hinfo]
  · intro h stack tm parts k e ha
    unfold New at ha
    rw [allocCell_newErr] at ha
    cases ha
    rfl

/-- Witness for C9 at a concrete nil-info error and key. -/
theorem C9_witness :
    (⟨5, 6, none, false, none, ""⟩ : ErrState String).info = none ∧
    ErrState.Info (⟨5, 6, none, false, none, ""⟩ : ErrState String) "Foo" =
      GoVal.nil :=
  ⟨rfl, (C9_info_nil_guard).1 ⟨5, 6, none, false, none, ""⟩ "Foo" rfl⟩

/-- C10: `Wrap` replaces a nil info argument by the empty map before
constructing or merging, so a cell created by `Wrap` always carries a
non-nil info map (`some (io.getD [])`) and can later be merged into with
any info; the plain, user-caused and formatted constructors instead store
the nil map exactly as given. -/
theorem C10_wrap_normalizes_nil_info {α : Type} :
    (∀ (h : Heap α) (stack tm : Nat) (msg : String)
       (io : Option (List (String × GoVal α))) (parts : List String),
       ∃ h' r, Wrap h stack tm (some (GoError.plain msg)) io parts =
           Except.ok (h', some r) ∧
         (h'.cells.get? r).map (fun e => e.info) = some (some (io.getD [])))
    ∧ (∀ (h : Heap α) (stack tm : Nat) (parts : List String),
       (allocCell (New h stack tm none parts)).map (fun e => e.info) =
         some none)
    ∧ (∀ (h : Heap α) (stack tm : Nat) (parts : List String),
       (allocCell (UserError h stack tm none parts)).map (fun e => e.info) =
         some none)
    ∧ (∀ (h : Heap α) (stack tm : Nat) (msg : String),
       (allocCell (Format h stack tm none msg)).map (fun e => e.info) =
         some none)
    ∧ (∀ (e : ErrState α) (m l : List (String × GoVal α)) (parts : List String),
       e.info = some m → ∃ e', mergeIn e l parts = Except.ok e' ∧
         e'.info = some (mergeInfo m l))
    ∧ (∀ (e : ErrState α) (parts : List String),
       ∃ e', mergeIn e [] parts = Except.ok e') := by
  refine ⟨?_, ?_, ?_, ?_, ?_, ?_⟩
  · intro h stack tm msg io parts
    cases io with
    | none =>
      refine ⟨_, _, rfl, ?_⟩
      have hc := allocCell_newErr h stack tm (some (GoError.plain msg)) false
        (some []) parts
      unfold allocCell at hc
      rw [hc]
      rfl
    | some l =>
      refine ⟨_, _, rfl, ?_⟩
      have hc := allocCell_newErr h stack tm (some (GoError.plain msg)) false
        (some l) parts
      unfold allocCell at hc
      rw [hc]
      rfl
  · intro h stack tm parts
    unfold New
    rw [allocCell_newErr]
    rfl
  · intro h stack tm parts
    unfold UserError
    rw [allocCell_newErr]
    rfl
  · intro h stack tm msg
    unfold Format
    rw [allocCell_newErr]
    rfl
  · intro e m l parts hm
    exact ⟨_, mergeIn_some e m l parts hm, rfl⟩
  · intro e parts
    cases hm : e.info with
    | none => exact ⟨_, mergeIn_none_nil e parts hm⟩
    | some m => exact ⟨_, mergeIn_some e m [] parts hm⟩

/-- Concrete instance for the C10 witness: a cell with a non-nil info map. -/
def c10e : ErrState String := ⟨7, 8, none, false, some [], ""⟩

/-- Witness for C10 at concrete constructor calls and a concrete merge. -/
theorem C10_witness :
    (∃ h' r, Wrap (Heap.empty String) 0 0 (some (GoError.plain "boom")) none
        [] = Except.ok (h', some r) ∧
      (h'.cells.get? r).map (fun e => e.info) =
        some (some ((none : Option (List (String × GoVal String))).getD []))) ∧
    (allocCell (New (Heap.empty String) 0 0 none [])).map (fun e => e.info) =
      some none ∧
    c10e.info = some [] ∧
    (∃ e', mergeIn c10e [("A", GoVal.val "B")] [] = Except.ok e' ∧
      e'.info = some (mergeInfo [] [("A", GoVal.val "B")])) := by
  refine ⟨(C10_wrap_normalizes_nil_info).1 (Heap.empty String) 0 0 "boom" none
    [], (C10_wrap_normalizes_nil_info).2.1 (Heap.empty String) 0 0 [], rfl, ?_⟩
  exact (C10_wrap_normalizes_nil_info).2.2.2.2.1 c10e [] [("A", GoVal.val "B")]
    [] rfl

end Errs
